import Mathlib

/-!
A verification development for the quicksync-rs synchronization engine.

The definitions below are a shallow embedding of the Rust sources:
`src/partial_quicksync.rs` (restore planner and executor),
`src/download.rs` (resumable range download with retries),
`src/read_error_response.rs`, `src/checksum.rs` and
`src/utils.rs` (`strip_trailing_newline`).

Machine integers (`u32`, `usize`) are modelled as `Nat`; `u32` parsing
enforces the `2^32` bound and the one place where a `u32` addition can
overflow (`latest_layer + 1`) is modelled with an explicit `% 2^32`
(release-profile wrapping semantics).  Fallible Rust code returning
`anyhow::Result` is modelled with `Option`/`Except`; external effects
(HTTP, SQLite, the filesystem) are passed in as explicit environments,
and side effects of the restore executor are recorded as an event trace.
-/

/-- One line of the remote manifest, `src/partial_quicksync.rs` lines 16-22.
`from` and `to` are `u32` in the source (the parser below enforces the
bound); `hash` is the published hex hash string. -/
structure RestorePoint where
  «from» : Nat
  «to» : Nat
  hash : String
deriving DecidableEq, Repr

/-- `u32` modulus. -/
def U32_MOD : Nat := 4294967296

/-- Rust `str::trim_end` (kernel-reducible model over the character
list; `Char.isWhitespace` covers the whitespace these texts contain). -/
def rustTrimEnd (s : String) : String :=
  String.mk ((s.data.reverse.dropWhile Char.isWhitespace).reverse)

/-- Rust `str::trim`. -/
def rustTrim (s : String) : String :=
  String.mk (((s.data.dropWhile Char.isWhitespace).reverse.dropWhile Char.isWhitespace).reverse)

/-- Splitting at every occurrence of a one-character separator (Rust
`str::split`): `"a,,b"` gives `[[a],[],[b]]`. -/
def splitOnChar (sep : Char) : List Char → List (List Char)
  | [] => [[]]
  | c :: rest =>
    let r := splitOnChar sep rest
    if c = sep then [] :: r
    else
      match r with
      | [] => [[c]]
      | g :: gs => (c :: g) :: gs

/-- Digit-by-digit accumulation of `u32::from_str`; fails on any
non-digit character. -/
def parseDigits (acc : Nat) : List Char → Option Nat
  | [] => some acc
  | c :: rest =>
    if c.isDigit then parseDigits (acc * 10 + (c.toNat - 48)) rest else none

/-- Rust `u32::from_str`: an optional leading `+`, then at least one
ASCII digit, and the value must fit in 32 bits. -/
def parseU32 (s : String) : Option Nat :=
  let l := match s.data with
    | '+' :: rest => rest
    | l => l
  match l with
  | [] => none
  | _ =>
    match parseDigits 0 l with
    | some n => if n < U32_MOD then some n else none
    | none => none

/-- First `n` characters of a string (the byte slice `s[..n]` of the
source, whose hashes are ASCII hex). -/
def strTake (s : String) (n : Nat) : String := String.mk (s.data.take n)

/-- Rust `str::ends_with`. -/
def strEndsWith (s suffix : String) : Bool := suffix.data.isSuffixOf s.data

/-- Rust `str::replace` on a non-empty pattern `p0 :: ps`: replace every
left-to-right, non-overlapping occurrence. -/
def replaceFrom (p0 : Char) (ps repl : List Char) : List Char → List Char
  | [] => []
  | c :: rest =>
    if (p0 :: ps).isPrefixOf (c :: rest) then
      repl ++ replaceFrom p0 ps repl (rest.drop ps.length)
    else c :: replaceFrom p0 ps repl rest
termination_by l => l.length
decreasing_by
  all_goals simp [List.length_drop]
  omega

/-- Rust `str::replace` (the source only ever passes non-empty literal
patterns). -/
def strReplace (s pat repl : String) : String :=
  match pat.data with
  | [] => s
  | p0 :: ps => String.mk (replaceFrom p0 ps repl.data s.data)

/-- Joining comma-separated pieces back together (the non-greedy
`parse_display` regex leaves every comma after the second inside the
`hash` field). -/
def joinWithComma : List (List Char) → List Char
  | [] => []
  | [g] => g
  | g :: gs => g ++ ',' :: joinWithComma gs

/-- ASCII lowercasing (spec-side helper for claim C5). -/
def asciiToLower (c : Char) : Char :=
  if 65 ≤ c.toNat ∧ c.toNat ≤ 90 then Char.ofNat (c.toNat + 32) else c

/-- Spec-side lowercasing of a digest string. -/
def strToLower (s : String) : String := String.mk (s.data.map asciiToLower)

/-- Parsing of one manifest line, format `{from},{to},{hash}` (the
`parse_display::FromStr` derive on `RestorePoint`).  The two leading
fields are parsed as `u32` (non-greedy up to the first two commas, so a
comma may still occur inside `hash`); a malformed field makes the whole
parse fail. -/
def RestorePoint.fromStr (line : String) : Option RestorePoint :=
  match splitOnChar ',' line.data with
  | f :: t :: h :: rest =>
    match parseU32 (String.mk f), parseU32 (String.mk t) with
    | some fv, some tv =>
      some { «from» := fv, «to» := tv, hash := String.mk (joinWithComma (h :: rest)) }
    | _, _ => none
  | _ => none

/-- `metadata.trim().lines()` of `find_restore_points`: trim the whole
text, then split into lines (an all-whitespace text has no lines). -/
def linesOf (s : String) : List String :=
  if s.data = [] then [] else (splitOnChar '\n' s.data).map String.mk

/-- The parsing loop of `find_restore_points` (lines 48-54): every line is
trimmed and parsed; the source panics (`expect`) on a malformed line,
modelled by `none`. -/
def parseMetadata (metadata : String) : Option (List RestorePoint) :=
  (linesOf (rustTrim metadata)).mapM (fun line => RestorePoint.fromStr (rustTrim line))

/-- `(point.from..point.to).contains(&layer_from)` - membership of
`layer_from` in the half-open range of a point. -/
def containsLayer (layer_from : Nat) (p : RestorePoint) : Bool :=
  decide (p.«from» ≤ layer_from) && decide (layer_from < p.«to»)

/-- The `target_index` computed by the loop of `find_restore_points`:
index of the first point whose range contains `layer_from`. -/
def findTargetIndex (layer_from : Nat) : List RestorePoint → Option Nat
  | [] => none
  | p :: rest =>
    if containsLayer layer_from p then some 0
    else (findTargetIndex layer_from rest).map (· + 1)

/-- The drain logic of `find_restore_points` (lines 57-67) on an already
parsed point list.  `drain(..k)` keeps the suffix `drop k`; `usize`
`saturating_sub` is `Nat` subtraction. -/
def find_restore_points_list (layer_from : Nat) (all_points : List RestorePoint)
    (jump_back : Nat) : List RestorePoint :=
  match findTargetIndex layer_from all_points with
  | some t => all_points.drop (t - jump_back)
  | none =>
    if jump_back = 0 then []
    else all_points.drop (all_points.length - jump_back)

/-- `find_restore_points` of `src/partial_quicksync.rs` lines 44-70:
parse the manifest text, then drain.  `none` models the parse panic. -/
def find_restore_points (layer_from : Nat) (metadata : String) (jump_back : Nat) :
    Option (List RestorePoint) :=
  (parseMetadata metadata).map (fun pts => find_restore_points_list layer_from pts jump_back)

/-- Lowercase hex digit, as produced by `hex::encode`. -/
def hexDigitChar (n : Nat) : Char :=
  if n < 10 then Char.ofNat (48 + n) else Char.ofNat (87 + n)

/-- Two lowercase hex digits of one byte. -/
def hexEncodeByte (b : Nat) : List Char :=
  [hexDigitChar (b % 256 / 16), hexDigitChar (b % 16)]

/-- `hex::encode` of a byte slice. -/
def hexEncode (bytes : List Nat) : String :=
  String.mk ((bytes.map hexEncodeByte).flatten)

/-- `get_previous_hash` (`src/partial_quicksync.rs` lines 24-36): query the
`aggregated_hash` blob of layer `layer_at - 1` and hex-encode its first
two bytes.  `db` is the `layers` table keyed by layer id; a missing row
(query error) or a blob shorter than two bytes (slice panic in the
source) is modelled by `none`. -/
def get_previous_hash (layer_at : Nat) (db : Nat → Option (List Nat)) : Option String :=
  match db (layer_at - 1) with
  | none => none
  | some bytes =>
    match bytes with
    | b0 :: b1 :: _ => some (hexEncode [b0, b1])
    | _ => none

/-- Environment of the restore executor: the target database's
`aggregated_hash` column together with success oracles for the external
effects of one step (zstd artifact download, decompression, plain
artifact download, `execute_batch` of the restore script). -/
structure RestoreEnv where
  db : Nat → Option (List Nat)
  zstOk : RestorePoint → Bool
  decompressOk : RestorePoint → Bool
  plainOk : RestorePoint → Bool
  sqlOk : RestorePoint → Bool

/-- Observable side effects of one restore step, in program order:
attempted downloads and restore-script executions. -/
inductive Event where
  | downloadZst (p : RestorePoint)
  | downloadPlain (p : RestorePoint)
  | execSql (p : RestorePoint)
deriving DecidableEq, Repr

/-- Failure cases of `partial_restore`, one constructor per `bail`,
`ensure`, `?`-propagation or panic site that the model covers. -/
inductive RestoreError where
  | prevHashQueryFailed (layer : Nat)
  | hashMismatch (previous_hash : String) (p : RestorePoint)
  | downloadFailed (p : RestorePoint)
  | decompressFailed (p : RestorePoint)
  | sqlFailed (p : RestorePoint)
  | parseFailed
  | noRestorePoints
deriving DecidableEq, Repr

/-- Lines 209-215 of `src/partial_quicksync.rs`: try the `.zst` artifact
first (decompressing on success), fall back to the plain artifact when
the compressed download fails. -/
def fetchPoint (env : RestoreEnv) (p : RestorePoint) : List Event × Option RestoreError :=
  if env.zstOk p then
    if env.decompressOk p then ([Event.downloadZst p], none)
    else ([Event.downloadZst p], some (RestoreError.decompressFailed p))
  else
    if env.plainOk p then ([Event.downloadZst p, Event.downloadPlain p], none)
    else ([Event.downloadZst p, Event.downloadPlain p], some (RestoreError.downloadFailed p))

/-- Download then `execute_batch` for one point (lines 209-226): the
events performed, and the first error if any. -/
def runPointBody (env : RestoreEnv) (p : RestorePoint) : List Event × Option RestoreError :=
  match fetchPoint env p with
  | (ev, some err) => (ev, some err)
  | (ev, none) =>
    if env.sqlOk p then (ev ++ [Event.execSql p], none)
    else (ev ++ [Event.execSql p], some (RestoreError.sqlFailed p))

/-- One iteration of the restore loop (lines 194-236): for `from != 0`,
read the previous hash and require it to equal the first four characters
of the point's hash (`p.hash[..4]`) before any download or SQL runs. -/
def applyPoint (env : RestoreEnv) (p : RestorePoint) : List Event × Option RestoreError :=
  if p.«from» ≠ 0 then
    match get_previous_hash p.«from» env.db with
    | none => ([], some (RestoreError.prevHashQueryFailed p.«from»))
    | some previous_hash =>
      if previous_hash = strTake p.hash 4 then runPointBody env p
      else ([], some (RestoreError.hashMismatch previous_hash p))
  else runPointBody env p

/-- The sequential loop over the planned points: an error aborts all
remaining points; on success the event traces concatenate. -/
def restoreLoop (env : RestoreEnv) : List RestorePoint → List Event × Option RestoreError
  | [] => ([], none)
  | p :: rest =>
    match applyPoint env p with
    | (ev, some err) => (ev, some err)
    | (ev, none) =>
      let r := restoreLoop env rest
      (ev ++ r.1, r.2)

/-- `(latest_layer + 1).saturating_sub(untrusted_layers)` on `u32`
(line 167).  The addition wraps at `2^32` (release-profile overflow
semantics); `Nat` subtraction is saturating. -/
def layerFrom (latest_layer untrusted_layers : Nat) : Nat :=
  ((latest_layer + 1) % U32_MOD) - untrusted_layers

/-- The pure skeleton of `partial_restore` (lines 151-238): parse the
fetched manifest, plan with `find_restore_points`, fail hard on an empty
plan (`ensure!` at lines 169-172), otherwise run the restore loop. -/
def partial_restore (env : RestoreEnv) (metadata : String)
    (latest_layer untrusted_layers jump_back : Nat) : List Event × Option RestoreError :=
  match parseMetadata metadata with
  | none => ([], some RestoreError.parseFailed)
  | some pts =>
    let start_points := find_restore_points_list (layerFrom latest_layer untrusted_layers) pts jump_back
    if start_points.isEmpty then ([], some RestoreError.noRestorePoints)
    else restoreLoop env start_points

/-- Well-formedness of a parsed manifest as the spec states it: every
range is non-empty and consecutive points are contiguous
(`points[i].to == points[i+1].from`); together these give non-overlap
and strict ascending order of `from`. -/
def wellFormed : List RestorePoint → Bool
  | [] => true
  | [p] => decide (p.«from» < p.«to»)
  | p :: q :: rest =>
    decide (p.«from» < p.«to») && (p.«to» == q.«from») && wellFormed (q :: rest)

/-- Spec-side predicate of claim C1 (written from the spec's words, to be
compared with the source behaviour): the point's range contains
`layer_from`, or lies entirely after it. -/
def specContainsOrFollows (layer_from : Nat) (p : RestorePoint) : Bool :=
  containsLayer layer_from p || decide (layer_from < p.«from»)

/-- Spec-side value of claim C7 (written from the spec's words): the
planning anchor as exact arithmetic clamped at zero,
`max(0, (L + 1) - u)`. -/
def specLayerFrom (latest_layer untrusted_layers : Nat) : Int :=
  max 0 ((latest_layer : Int) + 1 - (untrusted_layers : Int))

/-- Spec-side comparison of claim C5 (written from the spec's words):
case-insensitive equality of two hex digest strings. -/
def specCaseInsensitiveEq (a b : String) : Bool :=
  strToLower a == strToLower b

/-- An HTTP response to a `Range: bytes=offset-` request: status code,
error body text, and the served content bytes. -/
structure HttpResponse where
  status : Nat
  body : String
  content : List Nat

/-- `read_error_response` (`src/read_error_response.rs` lines 8-13):
extract `msg` from a structured JSON error body, else "Unknown error".
`parseMsg` stands for `serde_json::from_str::<ErrorResponse>` (an
external crate) composed with the `msg` projection. -/
def read_error_response (parseMsg : String → Option String) (body : String) : String :=
  match parseMsg body with
  | some msg => msg
  | none => "Unknown error"

/-- Errors of a single download attempt (`src/download.rs` lines 31-41):
a 2xx status other than 206 (server does not honor resume), or a
non-2xx remote failure carrying the parsed error body. -/
inductive DownloadError where
  | notPartialContent (code : Nat)
  | remoteFailure (url : String) (code : Nat) (err : String)
deriving DecidableEq, Repr

/-- `download_file` of `src/download.rs` (lines 13-113): seek the sink to
its end to find the resume offset, issue a ranged GET (the `server`
function maps the requested offset to the response), require status 206,
then append every received byte to the sink.  The chunked read loop
appends all body bytes in order, so its net effect on the sink is the
concatenation. -/
def download_file (server : Nat → HttpResponse) (parseMsg : String → Option String)
    (url : String) (sink : List Nat) : Except DownloadError (List Nat) :=
  let offset := sink.length
  let resp := server offset
  if resp.status = 206 then Except.ok (sink ++ resp.content)
  else if 200 ≤ resp.status ∧ resp.status ≤ 299 then
    Except.error (DownloadError.notPartialContent resp.status)
  else
    Except.error (DownloadError.remoteFailure url resp.status
      (read_error_response parseMsg resp.body))

/-- A range-honoring server holding `full`: every `Range: bytes=offset-`
request is answered with 206 and the bytes from `offset` on. -/
def rangeServer (full : List Nat) : Nat → HttpResponse :=
  fun offset => { status := 206, body := "", content := full.drop offset }

/-- The loop of `download_with_retries` (`src/download.rs` lines 115-134),
with `attempts` the 1-based number of the attempt about to run and
`attempt n` the outcome of the n-th call to `download_file`. -/
def retry_go (attempt : Nat → Except DownloadError Unit) (max_retries : Nat)
    (attempts : Nat) : Nat × Option DownloadError :=
  match attempt attempts with
  | Except.ok _ => (attempts, none)
  | Except.error e =>
    if h : attempts ≤ max_retries then retry_go attempt max_retries (attempts + 1)
    else (attempts, some e)
termination_by max_retries + 1 - attempts
decreasing_by omega

/-- `download_with_retries`: run attempts starting at attempt 1; the
result is the index of the last attempt made paired with `none` on
success or the last error once the budget is exhausted. -/
def download_with_retries (attempt : Nat → Except DownloadError Unit)
    (max_retries : Nat) : Nat × Option DownloadError :=
  retry_go attempt max_retries 1

/-- `strip_trailing_newline` (`src/utils.rs` lines 10-12): `trim_end`. -/
def strip_trailing_newline (input : String) : String :=
  rustTrimEnd input

/-- `get_link_to_db_md5` (`src/checksum.rs` lines 15-26): derive the
checksum companion URL by suffix substitution (URLs modelled as
strings; `str::replace` replaces every occurrence, as in the source). -/
def get_link_to_db_md5 (url : String) : Except String String :=
  if strEndsWith url ".sql.zip" then Except.ok (strReplace url ".sql.zip" ".sql.md5")
  else if strEndsWith url ".sql.zst" then Except.ok (strReplace url ".sql.zst" ".sql.md5")
  else Except.error "URL does not end with .sql.zip"

/-- Response of the checksum companion endpoint: whether the status was
2xx, and the body text. -/
structure TextResponse where
  success : Bool
  text : String

/-- `download_checksum` (`src/checksum.rs` lines 36-55): on a 2xx response
return the body with trailing whitespace stripped, else fail. -/
def download_checksum (resp : TextResponse) : Except String String :=
  if resp.success then Except.ok (strip_trailing_newline resp.text)
  else Except.error "Cannot download MD5 checksum"

/-- `verify_db` (`src/checksum.rs` lines 87-96): read the pinned redirect
URL, derive the companion URL, download the expected digest and compare
it against the locally computed digest.  `md5_actual` stands for the
successful result of `calculate_checksum` (the MD5 itself is an external
crate); the comparison `md5_actual == md5_expected` is the source's. -/
def verify_db (redirect_content : String) (md5_resp : TextResponse)
    (md5_actual : String) : Except String Bool :=
  match get_link_to_db_md5 redirect_content with
  | Except.error e => Except.error e
  | Except.ok _md5_url =>
    match download_checksum md5_resp with
    | Except.error e => Except.error e
    | Except.ok md5_expected => Except.ok (md5_actual == md5_expected)

/-- Environment used by the C2 witness: layer 99 stores aggregated hash
bytes `ff ff`, every external effect succeeds. -/
def envW : RestoreEnv :=
  { db := fun n => if n = 99 then some [255, 255] else none
    zstOk := fun _ => true
    decompressOk := fun _ => true
    plainOk := fun _ => true
    sqlOk := fun _ => true }

/-- Environment used by the C3 theorems: an empty database, every
external effect succeeds (none of them is ever reached). -/
def envTrivial : RestoreEnv :=
  { db := fun _ => none
    zstOk := fun _ => true
    decompressOk := fun _ => true
    plainOk := fun _ => true
    sqlOk := fun _ => true }

/-- Attempt oracle used by the C8 witness: attempt 2 succeeds, every
other attempt fails. -/
def attemptW : Nat → Except DownloadError Unit :=
  fun n => if n = 2 then Except.ok () else Except.error (DownloadError.notPartialContent 200)

/-- Server used by the C9 witness: always answers 206 with one byte. -/
def serverW : Nat → HttpResponse :=
  fun _ => { status := 206, body := "", content := [7] }

theorem wf_head_lt {p : RestorePoint} {rest : List RestorePoint}
    (h : wellFormed (p :: rest) = true) : p.«from» < p.«to» := by
  cases rest with
  | nil => simpa [wellFormed] using h
  | cons q r =>
    simp only [wellFormed, Bool.and_eq_true, decide_eq_true_eq] at h
    exact h.1.1

theorem wf_tail {p : RestorePoint} {rest : List RestorePoint}
    (h : wellFormed (p :: rest) = true) : wellFormed rest = true := by
  cases rest with
  | nil => simp [wellFormed]
  | cons q r =>
    simp only [wellFormed, Bool.and_eq_true] at h
    simpa [wellFormed] using h.2

theorem wf_to_le {p : RestorePoint} :
    ∀ rest : List RestorePoint, wellFormed (p :: rest) = true →
      ∀ q ∈ rest, p.«to» ≤ q.«from» := by
  intro rest
  induction rest generalizing p with
  | nil => intro _ q hq; cases hq
  | cons q1 r ih =>
    intro h q hq
    have h' : wellFormed (q1 :: r) = true := wf_tail h
    have h12 : p.«to» = q1.«from» := by
      simp only [wellFormed, Bool.and_eq_true, decide_eq_true_eq, beq_iff_eq] at h
      exact h.1.2
    rcases List.mem_cons.mp hq with rfl | hq'
    · exact le_of_eq h12
    · have hrec := ih h' q hq'
      have hq1 : q1.«from» < q1.«to» := wf_head_lt h'
      omega

theorem findTargetIndex_isSome_of_covered (l : Nat) :
    ∀ pts : List RestorePoint, (∃ p ∈ pts, containsLayer l p = true) →
      ∃ t, findTargetIndex l pts = some t := by
  intro pts
  induction pts with
  | nil => rintro ⟨p, hp, _⟩; cases hp
  | cons p rest ih =>
    rintro ⟨q, hq, hcq⟩
    by_cases hc : containsLayer l p = true
    · exact ⟨0, by simp [findTargetIndex, hc]⟩
    · rcases List.mem_cons.mp hq with rfl | hq'
      · exact absurd hcq hc
      · obtain ⟨t, ht⟩ := ih ⟨q, hq', hcq⟩
        exact ⟨t + 1, by simp [findTargetIndex, hc, ht]⟩

theorem findTargetIndex_none_of_uncovered (l : Nat) :
    ∀ pts : List RestorePoint, (∀ p ∈ pts, containsLayer l p = false) →
      findTargetIndex l pts = none := by
  intro pts
  induction pts with
  | nil => intro _; rfl
  | cons p rest ih =>
    intro h
    have hp := h p (List.mem_cons_self p rest)
    simp [findTargetIndex, hp, ih (fun q hq => h q (List.mem_cons_of_mem p hq))]

theorem frpl_eq_filter (l : Nat) :
    ∀ pts : List RestorePoint, wellFormed pts = true →
      (∃ p ∈ pts, containsLayer l p = true) →
      find_restore_points_list l pts 0 = pts.filter (specContainsOrFollows l) := by
  intro pts
  induction pts with
  | nil => rintro _ ⟨p, hp, _⟩; cases hp
  | cons p rest ih =>
    intro hwf hcov
    by_cases hc : containsLayer l p = true
    · have hlt : l < p.«to» := by
        simp only [containsLayer, Bool.and_eq_true, decide_eq_true_eq] at hc
        exact hc.2
      have hall : ∀ q ∈ rest, specContainsOrFollows l q = true := by
        intro q hq
        have hle := wf_to_le rest hwf q hq
        simp only [specContainsOrFollows, containsLayer, Bool.or_eq_true, Bool.and_eq_true,
          decide_eq_true_eq]
        omega
      have h1 : find_restore_points_list l (p :: rest) 0 = p :: rest := by
        simp [find_restore_points_list, findTargetIndex, hc]
      have h2 : (p :: rest).filter (specContainsOrFollows l) = p :: rest := by
        refine List.filter_eq_self.mpr ?_
        intro q hq
        rcases List.mem_cons.mp hq with rfl | hq'
        · simp [specContainsOrFollows, hc]
        · exact hall q hq'
      rw [h1, h2]
    · obtain ⟨q0, hq0, hcq0⟩ := hcov
      rcases List.mem_cons.mp hq0 with rfl | hq0'
      · exact absurd hcq0 hc
      have hcf : containsLayer l p = false := by simpa using hc
      have hcov' : ∃ q ∈ rest, containsLayer l q = true := ⟨q0, hq0', hcq0⟩
      obtain ⟨t, ht⟩ := findTargetIndex_isSome_of_covered l rest hcov'
      have hfromle : p.«from» ≤ l := by
        have h1 : p.«from» < p.«to» := wf_head_lt hwf
        have h2 : p.«to» ≤ q0.«from» := wf_to_le rest hwf q0 hq0'
        have h3 : q0.«from» ≤ l := by
          simp only [containsLayer, Bool.and_eq_true, decide_eq_true_eq] at hcq0
          exact hcq0.1
        omega
      have hnl : ¬ l < p.«from» := by omega
      have hps : specContainsOrFollows l p = false := by
        simp [specContainsOrFollows, hcf, hnl]
      have hres : find_restore_points_list l (p :: rest) 0 = rest.drop t := by
        simp [find_restore_points_list, findTargetIndex, hcf, ht]
      have htail : rest.drop t = rest.filter (specContainsOrFollows l) := by
        have hih := ih (wf_tail hwf) hcov'
        simpa [find_restore_points_list, ht] using hih
      calc find_restore_points_list l (p :: rest) 0 = rest.drop t := hres
        _ = rest.filter (specContainsOrFollows l) := htail
        _ = (p :: rest).filter (specContainsOrFollows l) := by
            simp [List.filter_cons, hps]

/-- C1 (amended): for a well-formed manifest (non-overlapping, contiguous,
sorted) that is parseable, when some point's range contains `layer_from`,
`find_restore_points(layer_from, manifest, 0)` returns exactly the points
whose range contains `layer_from` or lies entirely after it, in manifest
order with none skipped or duplicated; when no point's range contains
`layer_from` the result is empty, even if points lie entirely after
`layer_from`. -/
theorem C1_planner_exact_points (layer_from : Nat) (metadata : String)
    (pts : List RestorePoint)
    (hp : parseMetadata metadata = some pts) (hwf : wellFormed pts = true) :
    ((∃ p ∈ pts, containsLayer layer_from p = true) →
      find_restore_points layer_from metadata 0 =
        some (pts.filter (specContainsOrFollows layer_from))) ∧
    ((∀ p ∈ pts, containsLayer layer_from p = false) →
      find_restore_points layer_from metadata 0 = some []) := by
  constructor
  · intro hcov
    simp only [find_restore_points, hp, Option.map_some', Option.some.injEq]
    exact frpl_eq_filter layer_from pts hwf hcov
  · intro hunc
    simp [find_restore_points, hp, find_restore_points_list,
      findTargetIndex_none_of_uncovered layer_from pts hunc]

/-- C1 counterexample: the manifest `100,200,bbbb\n200,300,ijkl` is
well-formed and both of its points lie entirely after layer 90, yet
`find_restore_points(90, manifest, 0)` returns the empty list (matching
the source's own `restore_points_dont_have_missing_data` test), not those
points — so the claim as stated is false. -/
theorem C1_counterexample :
    wellFormed [⟨100, 200, "bbbb"⟩, ⟨200, 300, "ijkl"⟩] = true ∧
    parseMetadata "100,200,bbbb\n200,300,ijkl" =
      some [⟨100, 200, "bbbb"⟩, ⟨200, 300, "ijkl"⟩] ∧
    find_restore_points 90 "100,200,bbbb\n200,300,ijkl" 0 = some [] ∧
    [RestorePoint.mk 100 200 "bbbb", ⟨200, 300, "ijkl"⟩].filter (specContainsOrFollows 90) =
      [⟨100, 200, "bbbb"⟩, ⟨200, 300, "ijkl"⟩] := by
  refine ⟨by decide, by decide, by decide, by decide⟩

/-- C1 witness: the amended theorem applied to the three-point manifest of
the source's tests at layer 150. -/
theorem C1_witness :
    find_restore_points 150 "0,100,aaaa\n100,200,bbbb\n200,300,ijkl" 0 =
      some ([RestorePoint.mk 0 100 "aaaa", ⟨100, 200, "bbbb"⟩,
        ⟨200, 300, "ijkl"⟩].filter (specContainsOrFollows 150)) :=
  (C1_planner_exact_points 150 _ _ (by decide) (by decide)).1
    ⟨⟨100, 200, "bbbb"⟩, by decide, by decide⟩

/-- C6: when the first point containing `layer_from` has index `t`, a
positive `jump_back = k` makes `find_restore_points` return the points
from index `t - k` (saturating, so never before the manifest start) to
the end — the `k = 0` tail `drop t` prefixed by up to `k` earlier
points. -/
theorem C6_jump_back (layer_from : Nat) (metadata : String) (jump_back : Nat)
    (pts : List RestorePoint) (t : Nat)
    (hp : parseMetadata metadata = some pts)
    (ht : findTargetIndex layer_from pts = some t)
    (hj : 0 < jump_back) :
    find_restore_points layer_from metadata jump_back = some (pts.drop (t - jump_back)) ∧
    pts.drop t <:+ pts.drop (t - jump_back) := by
  constructor
  · simp [find_restore_points, hp, find_restore_points_list, ht]
  · have heq : pts.drop t = (pts.drop (t - jump_back)).drop (t - (t - jump_back)) := by
      rw [List.drop_drop]
      congr 1
      omega
    rw [heq]
    exact List.drop_suffix _ _

/-- C6 witness: the test manifest at layer 150 with `jump_back = 1`; the
first containing point has index 1. -/
theorem C6_witness :
    find_restore_points 150 "0,100,aaaa\n100,200,bbbb\n200,300,ijkl" 1 =
      some ([RestorePoint.mk 0 100 "aaaa", ⟨100, 200, "bbbb"⟩,
        ⟨200, 300, "ijkl"⟩].drop (1 - 1)) ∧
    [RestorePoint.mk 0 100 "aaaa", ⟨100, 200, "bbbb"⟩, ⟨200, 300, "ijkl"⟩].drop 1 <:+
      [RestorePoint.mk 0 100 "aaaa", ⟨100, 200, "bbbb"⟩, ⟨200, 300, "ijkl"⟩].drop (1 - 1) :=
  C6_jump_back 150 _ 1 _ 1 (by decide) (by decide) (by decide)

/-- C10: on any parseable manifest, the planner's result is a contiguous
suffix of the full parsed point sequence — order preserved, nothing
duplicated, and every point after an included one is included. -/
theorem C10_plan_is_suffix (layer_from : Nat) (metadata : String) (jump_back : Nat)
    (pts : List RestorePoint) (hp : parseMetadata metadata = some pts) :
    ∃ res, find_restore_points layer_from metadata jump_back = some res ∧ res <:+ pts := by
  refine ⟨find_restore_points_list layer_from pts jump_back,
    by simp [find_restore_points, hp], ?_⟩
  cases h : findTargetIndex layer_from pts with
  | some t =>
    simp only [find_restore_points_list, h]
    exact List.drop_suffix _ _
  | none =>
    simp only [find_restore_points_list, h]
    split
    · exact List.nil_suffix
    · exact List.drop_suffix _ _

/-- C10 witness: the suffix property at the test manifest, layer 300,
`jump_back = 2`. -/
theorem C10_witness :
    ∃ res, find_restore_points 300 "0,100,aaaa\n100,200,bbbb\n200,300,ijkl" 2 = some res ∧
      res <:+ [RestorePoint.mk 0 100 "aaaa", ⟨100, 200, "bbbb"⟩, ⟨200, 300, "ijkl"⟩] :=
  C10_plan_is_suffix 300 _ 2 _ (by decide)

/-- C2: when the restore executor reaches a planned point with
`from != 0` whose stored previous hash (first two bytes of the
aggregated hash at layer `from - 1`, hex-encoded) differs from the first
four hex characters of the point's hash, it fails with the hash-mismatch
error, performing no download and no SQL execution for that point, and
aborting every remaining planned point: the whole run produces exactly
the events of the already-succeeded prefix. -/
theorem C2_hash_mismatch_aborts (env : RestoreEnv) (pre rest : List RestorePoint)
    (p : RestorePoint) (tr : List Event) (h : String)
    (hpre : restoreLoop env pre = (tr, none))
    (hf : p.«from» ≠ 0)
    (hh : get_previous_hash p.«from» env.db = some h)
    (hne : h ≠ strTake p.hash 4) :
    restoreLoop env (pre ++ p :: rest) = (tr, some (RestoreError.hashMismatch h p)) := by
  induction pre generalizing tr with
  | nil =>
    simp only [restoreLoop] at hpre
    obtain ⟨rfl, -⟩ := Prod.mk.injEq .. ▸ hpre
    simp [restoreLoop, applyPoint, hf, hh, hne]
  | cons q qre ih =>
    simp only [List.cons_append, restoreLoop] at hpre ⊢
    cases happ : applyPoint env q with
    | mk ev e =>
      cases e with
      | some err => simp [happ] at hpre
      | none =>
        simp only [happ] at hpre ⊢
        cases hrec : restoreLoop env qre with
        | mk tr2 e2 =>
          simp only [hrec] at hpre
          obtain ⟨rfl, rfl⟩ : ev ++ tr2 = tr ∧ e2 = none := by
            constructor
            · exact congrArg Prod.fst hpre
            · exact congrArg Prod.snd hpre
          have hres := ih tr2 hrec
          simp only [List.append_eq]
          rw [hres]

/-- C2 witness: a database whose layer 99 stores `ff ff` rejects the
point `100,200,aaaa` with no download or SQL event. -/
theorem C2_witness :
    restoreLoop envW [⟨100, 200, "aaaa"⟩] =
      ([], some (RestoreError.hashMismatch "ffff" ⟨100, 200, "aaaa"⟩)) :=
  C2_hash_mismatch_aborts envW [] [] ⟨100, 200, "aaaa"⟩ [] "ffff"
    rfl (by decide) (by decide) (by decide)

/-- C3 counterexample: with the manifest `0,100,aaaa\n100,200,bbbb` and a
local database already at the end of the covered range
(`latest_layer = 199`, so the anchor is layer 200), `jump_back = 0` and
no untrusted layers, the plan is empty and `partial_restore` returns the
hard "no suitable restore points" error — not a successful no-op as the
claim states. -/
theorem C3_counterexample :
    layerFrom 199 0 = 200 ∧
    parseMetadata "0,100,aaaa\n100,200,bbbb" =
      some [⟨0, 100, "aaaa"⟩, ⟨100, 200, "bbbb"⟩] ∧
    find_restore_points 200 "0,100,aaaa\n100,200,bbbb" 0 = some [] ∧
    partial_restore envTrivial "0,100,aaaa\n100,200,bbbb" 199 0 0 =
      ([], some RestoreError.noRestorePoints) := by
  refine ⟨by decide, by decide, by decide, by decide⟩

/-- C3 (amended): `partial_restore` treats every empty plan as the hard
error "No suitable restore points found" — including the case where the
local database is already within or past the manifest's covered range
with `jump_back = 0`; there is no successful no-op path for an empty
plan. -/
theorem C3_empty_plan_is_error (env : RestoreEnv) (metadata : String)
    (latest_layer untrusted_layers jump_back : Nat) (pts : List RestorePoint)
    (hp : parseMetadata metadata = some pts)
    (he : find_restore_points_list (layerFrom latest_layer untrusted_layers) pts jump_back = []) :
    partial_restore env metadata latest_layer untrusted_layers jump_back =
      ([], some RestoreError.noRestorePoints) := by
  simp [partial_restore, hp, he]

/-- C3 witness: the amended theorem applied to the fully-synced scenario
of the counterexample. -/
theorem C3_witness :
    partial_restore envTrivial "0,100,aaaa\n100,200,bbbb" 199 0 0 =
      ([], some RestoreError.noRestorePoints) :=
  C3_empty_plan_is_error envTrivial "0,100,aaaa\n100,200,bbbb" 199 0 0
    [⟨0, 100, "aaaa"⟩, ⟨100, 200, "bbbb"⟩] (by decide) (by decide)

/-- C4: against a range-honoring server holding `full`, a second download
attempt over a sink left with a proper prefix of the content (the first,
interrupted attempt) seeks to the sink's end, requests the range from
that offset and appends exactly the remaining bytes: the final sink
equals the content, byte for byte — the same as one uninterrupted
download into an empty sink. -/
theorem C4_resume_idempotent (full : List Nat) (k : Nat)
    (parseMsg : String → Option String) (url : String)
    (hk : k < full.length) :
    download_file (rangeServer full) parseMsg url (full.take k) = Except.ok full ∧
    download_file (rangeServer full) parseMsg url [] = Except.ok full := by
  constructor
  · simp [download_file, rangeServer, List.length_take, Nat.min_eq_left (le_of_lt hk),
      List.take_append_drop]
  · simp [download_file, rangeServer]

/-- C4 witness: resuming after two of four bytes reproduces the full
content. -/
theorem C4_witness :
    download_file (rangeServer [1, 2, 3, 4]) (fun _ => none) "u" ([1, 2, 3, 4].take 2) =
      Except.ok [1, 2, 3, 4] ∧
    download_file (rangeServer [1, 2, 3, 4]) (fun _ => none) "u" [] =
      Except.ok [1, 2, 3, 4] :=
  C4_resume_idempotent [1, 2, 3, 4] 2 (fun _ => none) "u" (by decide)

/-- C5 counterexample: with the expected digest published as `ABCDEF`
(uppercase) and the locally computed digest `abcdef`, the two digests
are equal under case-insensitive comparison, yet `verify_db` returns
`Ok false`: the source compares the strings exactly, not
case-insensitively, so the claim's "true iff case-insensitively equal"
is false. -/
theorem C5_counterexample :
    verify_db "http://a/state.sql.zst" ⟨true, "ABCDEF\n"⟩ "abcdef" = Except.ok false ∧
    specCaseInsensitiveEq "abcdef" (strip_trailing_newline "ABCDEF\n") = true :=
  ⟨rfl, by decide⟩

/-- C5 (amended): when both digests are successfully obtained (the
redirect URL has a recognised suffix and the companion endpoint answers
2xx), verification returns `Ok` of the exact, case-sensitive string
equality of the local digest with the stripped expected digest — a
mismatch, including a case-only difference, is the boolean `false`,
never an error. -/
theorem C5_exact_digest_equality (redirect_content : String) (md5_resp : TextResponse)
    (md5_actual : String)
    (hurl : strEndsWith redirect_content ".sql.zst" = true)
    (hok : md5_resp.success = true) :
    verify_db redirect_content md5_resp md5_actual =
      Except.ok (md5_actual == strip_trailing_newline md5_resp.text) := by
  unfold verify_db get_link_to_db_md5 download_checksum
  by_cases hz : strEndsWith redirect_content ".sql.zip" = true
  · simp [hz, hok]
  · simp [hz, hurl, hok]

/-- C5 witness: digests `ffaa` and `ff00` verify to `Ok false` rather
than an error. -/
theorem C5_witness :
    verify_db "http://a/state.sql.zst" ⟨true, "ff00\n"⟩ "ffaa" =
      Except.ok (("ffaa" : String) == strip_trailing_newline "ff00\n") :=
  C5_exact_digest_equality "http://a/state.sql.zst" ⟨true, "ff00\n"⟩ "ffaa"
    (by decide) rfl

/-- C7 counterexample: at `latest_committed_layer = 2^32 - 1` (a
representable `u32`), the addition `latest_layer + 1` wraps to zero, so
the computed anchor is `0` and not `max(0, (L + 1) - u)`: the claim's
"exact unsigned 32-bit arithmetic, equals max(0, (L+1) - u)" fails for
this input. -/
theorem C7_counterexample :
    layerFrom 4294967295 5 = 0 ∧
    specLayerFrom 4294967295 5 = 4294967291 ∧
    (layerFrom 4294967295 5 : Int) ≠ specLayerFrom 4294967295 5 := by
  refine ⟨by decide, by decide, by decide⟩

/-- C7 (amended): whenever `latest_layer + 1` does not overflow `u32`
(every `latest_layer < 2^32 - 1`), the planning anchor
`(latest_layer + 1).saturating_sub(untrusted_layers)` never underflows
and equals `max(0, (latest_layer + 1) - untrusted_layers)` in exact
arithmetic; at `latest_layer = 2^32 - 1` the addition wraps and the
anchor is `0` instead. -/
theorem C7_layer_from_clamped (latest_layer untrusted_layers : Nat)
    (hlt : latest_layer + 1 < U32_MOD) :
    (layerFrom latest_layer untrusted_layers : Int) =
      specLayerFrom latest_layer untrusted_layers := by
  unfold layerFrom specLayerFrom
  rw [Nat.mod_eq_of_lt hlt]
  omega

/-- C7 witness: `latest_layer = 99`, `untrusted_layers = 10` gives
anchor 90. -/
theorem C7_witness :
    (layerFrom 99 10 : Int) = specLayerFrom 99 10 :=
  C7_layer_from_clamped 99 10 (by decide)

theorem retry_go_spec (attempt : Nat → Except DownloadError Unit) (max_retries : Nat) :
    ∀ fuel n, max_retries + 1 - n = fuel → 1 ≤ n → n ≤ max_retries + 1 →
      n ≤ (retry_go attempt max_retries n).1 ∧
      (retry_go attempt max_retries n).1 ≤ max_retries + 1 ∧
      ((retry_go attempt max_retries n).2 = none →
        attempt (retry_go attempt max_retries n).1 = Except.ok () ∧
        ∀ j, n ≤ j → j < (retry_go attempt max_retries n).1 →
          ∃ e, attempt j = Except.error e) ∧
      (∀ e, (retry_go attempt max_retries n).2 = some e →
        (retry_go attempt max_retries n).1 = max_retries + 1 ∧
        attempt (max_retries + 1) = Except.error e ∧
        ∀ j, n ≤ j → j ≤ max_retries + 1 → ∃ e2, attempt j = Except.error e2) := by
  intro fuel
  induction fuel with
  | zero =>
    intro n hfuel h1 hle
    have hn : n = max_retries + 1 := by omega
    subst hn
    cases hat : attempt (max_retries + 1) with
    | ok u =>
      cases u
      have hstep : retry_go attempt max_retries (max_retries + 1) = (max_retries + 1, none) := by
        rw [retry_go, hat]
      rw [hstep]
      refine ⟨Nat.le_refl _, Nat.le_refl _, ?_, ?_⟩
      · exact fun _ => ⟨hat, fun j hj1 hj2 => absurd hj2 (by omega)⟩
      · intro e he
        exact absurd he (by simp)
    | error e0 =>
      have hstep : retry_go attempt max_retries (max_retries + 1) = (max_retries + 1, some e0) := by
        rw [retry_go, hat]
        exact dif_neg (by omega)
      rw [hstep]
      refine ⟨Nat.le_refl _, Nat.le_refl _, ?_, ?_⟩
      · intro hco
        exact absurd hco (by simp)
      · intro e he
        have he' : e0 = e := by simpa using he
        subst he'
        exact ⟨rfl, rfl, fun j hj1 hj2 => ⟨e0, by rwa [(by omega : j = max_retries + 1)]⟩⟩
  | succ fuel ih =>
    intro n hfuel h1 hle
    have hnle : n ≤ max_retries := by omega
    cases hat : attempt n with
    | ok u =>
      cases u
      have hstep : retry_go attempt max_retries n = (n, none) := by
        rw [retry_go, hat]
      rw [hstep]
      refine ⟨Nat.le_refl _, by omega, ?_, ?_⟩
      · exact fun _ => ⟨hat, fun j hj1 hj2 => absurd hj2 (by omega)⟩
      · intro e he
        exact absurd he (by simp)
    | error e0 =>
      have hstep : retry_go attempt max_retries n = retry_go attempt max_retries (n + 1) := by
        rw [retry_go, hat]
        exact dif_pos hnle
      rw [hstep]
      obtain ⟨ha, hb, hc, hd⟩ := ih (n + 1) (by omega) (by omega) (by omega)
      refine ⟨Nat.le_trans (by omega) ha, hb, ?_, ?_⟩
      · intro hnone
        obtain ⟨hok, hall⟩ := hc hnone
        refine ⟨hok, fun j hj1 hj2 => ?_⟩
        rcases Nat.eq_or_lt_of_le hj1 with rfl | hlt2
        · exact ⟨e0, hat⟩
        · exact hall j (by omega) hj2
      · intro e he
        obtain ⟨hA, hB, hC⟩ := hd e he
        refine ⟨hA, hB, fun j hj1 hj2 => ?_⟩
        rcases Nat.eq_or_lt_of_le hj1 with rfl | hlt2
        · exact ⟨e0, hat⟩
        · exact hC j (by omega) hj2

/-- C8: `download_with_retries` makes at most `max_retries + 1` attempts
in total; it returns success exactly when an attempt succeeds, with all
earlier attempts having failed (so every kind of failure is retried
while the budget lasts), and when it returns an error the budget is
exhausted — all `max_retries + 1` attempts failed — and the returned
error is the last attempt's. -/
theorem C8_retry_budget (attempt : Nat → Except DownloadError Unit) (max_retries : Nat) :
    1 ≤ (download_with_retries attempt max_retries).1 ∧
    (download_with_retries attempt max_retries).1 ≤ max_retries + 1 ∧
    ((download_with_retries attempt max_retries).2 = none →
      attempt (download_with_retries attempt max_retries).1 = Except.ok () ∧
      ∀ j, 1 ≤ j → j < (download_with_retries attempt max_retries).1 →
        ∃ e, attempt j = Except.error e) ∧
    (∀ e, (download_with_retries attempt max_retries).2 = some e →
      (download_with_retries attempt max_retries).1 = max_retries + 1 ∧
      attempt (max_retries + 1) = Except.error e ∧
      ∀ j, 1 ≤ j → j ≤ max_retries + 1 → ∃ e2, attempt j = Except.error e2) :=
  retry_go_spec attempt max_retries (max_retries + 1 - 1) 1 rfl (Nat.le_refl 1) (by omega)

/-- C8 witness: with attempt 2 succeeding out of a budget of
`max_retries = 3`, the attempt count is within the `max_retries + 1`
bound. -/
theorem C8_witness :
    1 ≤ (download_with_retries attemptW 3).1 ∧
    (download_with_retries attemptW 3).1 ≤ 3 + 1 :=
  ⟨(C8_retry_budget attemptW 3).1, (C8_retry_budget attemptW 3).2.1⟩

/-- C9: a single download attempt proceeds (appending the served bytes)
exactly when the response status is 206; any other 2xx status yields the
protocol-violation error, and any non-2xx status yields the
remote-failure error carrying `read_error_response` of the body — the
parsed structured message when present, `"Unknown error"` otherwise. -/
theorem C9_status_gate (server : Nat → HttpResponse) (parseMsg : String → Option String)
    (url : String) (sink : List Nat) :
    ((server sink.length).status = 206 →
      download_file server parseMsg url sink =
        Except.ok (sink ++ (server sink.length).content)) ∧
    ((server sink.length).status ≠ 206 → 200 ≤ (server sink.length).status →
      (server sink.length).status ≤ 299 →
      download_file server parseMsg url sink =
        Except.error (DownloadError.notPartialContent (server sink.length).status)) ∧
    (¬ (200 ≤ (server sink.length).status ∧ (server sink.length).status ≤ 299) →
      download_file server parseMsg url sink =
        Except.error (DownloadError.remoteFailure url (server sink.length).status
          (read_error_response parseMsg (server sink.length).body))) ∧
    (∀ body msg, parseMsg body = some msg → read_error_response parseMsg body = msg) ∧
    (∀ body, parseMsg body = none → read_error_response parseMsg body = "Unknown error") := by
  refine ⟨?_, ?_, ?_, ?_, ?_⟩
  · intro h206
    simp [download_file, h206]
  · intro hne h2a h2b
    simp [download_file, hne, h2a, h2b]
  · intro hn
    have hne : (server sink.length).status ≠ 206 := by
      intro h
      apply hn
      constructor <;> omega
    simp [download_file, hne, hn]
  · intro body msg h
    simp [read_error_response, h]
  · intro body h
    simp [read_error_response, h]

/-- C9 witness: a 206 response proceeds and appends the served byte. -/
theorem C9_witness :
    download_file serverW (fun _ => none) "u" [] = Except.ok ([] ++ (serverW 0).content) :=
  (C9_status_gate serverW (fun _ => none) "u" []).1 rfl
